import Mathlib

/-!
Shallow embedding of the quota-gated placement ledger of the `dot` repository.

Source files embedded here:
- src/app/api/dots/place/route.ts        (single placement, `placeOne`)
- src/app/api/dots/place-batch/route.ts  (batch placement, `placeBatch`)
- src/app/api/session/reveal/route.ts    (explicit reveal, `revealRoute`)
- src/app/api/session/init/route.ts      (participant creation, `initParticipant`)
- src/lib/color-pools.ts                 (hex normalization, brightness check,
                                          `getAvailableHex`)
- src/app/page.tsx                       (client reducer `appReducer`)
- src/supabase/migrations/*.sql          (schema: `sessions`, `dots`, the unique
                                          index on (session_id, client_dot_id))

Modelling conventions:
- The Supabase/Postgres store is a `DB` value: the `sessions` table, the `dots`
  table and a counter used to mint fresh row ids.  `session_id` is the primary
  key of `sessions` (migration 001), so `.single()` lookups are modelled with
  `List.find?`.
- `uuidv4()` and `created_at DEFAULT now()` are modelled by drawing fresh
  numbers from the `nextId` counter; the claims never inspect the actual values,
  only freshness and ordering.
- JSON numbers are finite, so request coordinates are rationals; a request
  field that is absent or not a number is `none` (the `typeof x !== 'number'`
  checks).  JS string truthiness is modelled by comparison with `""`.
- Each `await supabaseAdmin...` call in a route is one atomic database access.
  The single-placement route is embedded as a small state machine (`tstep`)
  whose states are the program points between database accesses; running the
  machine to completion (`placeOne`) is the sequential semantics, and
  interleaving two machines (`runTwo`) is the concurrent semantics used for the
  concurrency claims.
- The spec's `freeQuotaConsumed` is the code's `blind_dots_used`, the spec's
  `phase=free` is the code's `phase='blind'`, and the spec's `creditBalance` is
  the code's `credits`; the embedding keeps the code's names.
-/

/-- Placement phase tag; the spec's `free` phase is the code's `'blind'`. -/
inductive Phase where
  | blind
  | paid
deriving DecidableEq, Repr

/-- One row of the `sessions` table (migration 001); this is the participant
ledger: `blind_dots_used` is the spec's `freeQuotaConsumed`. -/
structure Session where
  sessionId : String
  colorName : String
  colorHex : String
  blindDotsUsed : Int
  revealed : Bool
  credits : Int
deriving DecidableEq, Repr

/-- One row of the `dots` table (migrations 001/003/004). `clientDotId` is the
optional idempotency key, unique per (session_id, client_dot_id). -/
structure Dot where
  id : Nat
  sessionId : String
  x : Rat
  y : Rat
  colorHex : String
  phase : Phase
  clientDotId : Option String
  createdAt : Nat
deriving DecidableEq, Repr

/-- The relational store: both tables plus a counter minting fresh ids. -/
structure DB where
  sessions : List Session
  dots : List Dot
  nextId : Nat
deriving DecidableEq, Repr

/-- Session snapshot DTO returned by place/init/reveal responses. -/
structure SessionDTO where
  sessionId : String
  colorName : String
  colorHex : String
  blindDotsUsed : Int
  revealed : Bool
  credits : Int
deriving DecidableEq, Repr

/-- Session snapshot DTO returned by the batch route (its `.select()` list has
no `color_name` column). -/
structure BatchSessionDTO where
  sessionId : String
  blindDotsUsed : Int
  revealed : Bool
  credits : Int
  colorHex : String
deriving DecidableEq, Repr

/-- Accepted-dot DTO of the batch response. -/
structure DotDTO where
  sessionId : String
  x : Rat
  y : Rat
  colorHex : String
  phase : Phase
  createdAt : Nat
  clientDotId : Option String
deriving DecidableEq, Repr

/-- Shape of a snapshot built from a ledger row (place/init/reveal routes). -/
def sessionToDTO (s : Session) : SessionDTO :=
  ⟨s.sessionId, s.colorName, s.colorHex, s.blindDotsUsed, s.revealed, s.credits⟩

/-- Shape of a snapshot built from a ledger row (batch route). -/
def sessionToBatchDTO (s : Session) : BatchSessionDTO :=
  ⟨s.sessionId, s.blindDotsUsed, s.revealed, s.credits, s.colorHex⟩

/-- Shape of an accepted-dot DTO built from a stored row (batch route). -/
def dotToDTO (d : Dot) : DotDTO :=
  ⟨d.sessionId, d.x, d.y, d.colorHex, d.phase, d.createdAt, d.clientDotId⟩

/-- Outcomes of the single-placement route `src/app/api/dots/place/route.ts`.
`noFreeDots` (HTTP 409) carries the ledger snapshot; `insufficientCredits`
(HTTP 400) is the bare error object of source lines 209-214 and carries no
snapshot. `badRequest` and `invalidCoords` are the two 400 validation errors. -/
inductive PlaceResult where
  | badRequest
  | invalidCoords
  | notFound
  | noFreeDots (session : SessionDTO)
  | insufficientCredits
  | ok (session : SessionDTO)
  | serverError
deriving DecidableEq, Repr

/-- JS String.prototype.toLowerCase, character by character (executable by the
kernel, unlike the library String.toLower). -/
def jsToLower (s : String) : String :=
  String.mk (s.data.map Char.toLower)

/-- JS String.prototype.trim: strip leading and trailing whitespace. -/
def jsTrim (s : String) : String :=
  String.mk (((s.data.dropWhile Char.isWhitespace).reverse.dropWhile
    Char.isWhitespace).reverse)

/-- JS String.prototype.startsWith. -/
def jsStartsWith (s pre : String) : Bool :=
  s.data.take pre.data.length == pre.data

/-- Lowercase a hex string and ensure a leading '#'
(normalizeHex, src/lib/color-pools.ts lines 5-11). -/
def normalizeHex (hex : String) : String :=
  let trimmed := jsTrim hex
  if jsStartsWith trimmed "#" then jsToLower trimmed
  else "#" ++ jsToLower trimmed

/-- JS truthiness of an optional string field: an empty string is falsy, so the
routes treat a supplied `clientDotId` of `""` as no key at all. -/
def effKey (k : Option String) : Option String :=
  match k with
  | some s => if s = "" then none else some s
  | none => none

/-- Fetch of a session row by primary key
(the routes' `.eq('session_id', sessionId).single()`). -/
def findSession (db : DB) (sid : String) : Option Session :=
  db.sessions.find? (fun s => s.sessionId == sid)

/-- Lookup of a dot by its idempotency key
(`.eq('session_id', ...).eq('client_dot_id', ...).single()`). -/
def findDotByKey (db : DB) (sid k : String) : Option Dot :=
  db.dots.find? (fun d => d.sessionId == sid && d.clientDotId == some k)

/-- Update of the session row identified by `sid` (the routes'
`.update(...).eq('session_id', sessionId)`). -/
def updateSession (db : DB) (sid : String) (f : Session → Session) : DB :=
  { db with sessions := db.sessions.map (fun s => if s.sessionId == sid then f s else s) }

/-- Insert into `dots`; `none` signals the unique-constraint violation on
(session_id, client_dot_id) of migration 004.  Id and creation time come from
the fresh-id counter. -/
def insertDotRow (db : DB) (sid : String) (x y : Rat) (hex : String)
    (ph : Phase) (key : Option String) : Option DB :=
  let dup := match key with
    | some k => (findDotByKey db sid k).isSome
    | none => false
  if dup then none
  else some { db with
    dots := db.dots ++ [⟨db.nextId, sid, x, y, hex, ph, key, db.nextId⟩],
    nextId := db.nextId + 1 }

/-- Request body of the single-placement route.  `x`/`y` are `none` when the
JSON field is missing or not a number (`clientW`/`clientH` are audit-only
pass-through fields and take no part in any decision, so they are omitted). -/
structure PlaceReq where
  sessionId : String
  x : Option Rat
  y : Option Rat
  clientDotId : Option String
deriving DecidableEq, Repr

/-- Program points of the single-placement handler, one per pending database
access of src/app/api/dots/place/route.ts. -/
inductive TState where
  | start
  | needLookup (sess : Session)
  | needInsertBlind (sess : Session)
  | refetchAfterFound (sess : Session)
  | refetchAfterDup
  | needUpdateBlind (sess : Session)
  | needInsertPaid (sess : Session)
  | needUpdatePaid (sess : Session)
  | done (r : PlaceResult)
deriving DecidableEq, Repr

/-- One atomic step of the single-placement handler: exactly one database
access per step, mirroring the `await` structure of
src/app/api/dots/place/route.ts.  Validation (lines 10-24) is pure and happens
before the first access. -/
def tstep (req : PlaceReq) (t : TState) (db : DB) : TState × DB :=
  match t with
  | .start =>
    match req.x, req.y with
    | some x, some y =>
      if req.sessionId = "" then (.done .badRequest, db)
      else if x < 0 ∨ 1 < x ∨ y < 0 ∨ 1 < y then (.done .invalidCoords, db)
      else
        match findSession db req.sessionId with
        | none => (.done .notFound, db)
        | some sess =>
          if sess.revealed then
            if sess.credits ≤ 0 then (.done .insufficientCredits, db)
            else (.needInsertPaid sess, db)
          else
            if 10 ≤ sess.blindDotsUsed then
              (.done (.noFreeDots (sessionToDTO sess)), db)
            else
              match effKey req.clientDotId with
              | some _ => (.needLookup sess, db)
              | none => (.needInsertBlind sess, db)
    | _, _ => (.done .badRequest, db)
  | .needLookup sess =>
    match effKey req.clientDotId with
    | some k =>
      match findDotByKey db req.sessionId k with
      | some _ => (.refetchAfterFound sess, db)
      | none => (.needInsertBlind sess, db)
    | none => (.needInsertBlind sess, db)
  | .refetchAfterFound sess =>
    -- lines 85-101: return the current snapshot; if the refetch finds nothing
    -- the code falls through to the insert below.
    match findSession db req.sessionId with
    | some cur => (.done (.ok (sessionToDTO cur)), db)
    | none => (.needInsertBlind sess, db)
  | .needInsertBlind sess =>
    match req.x, req.y with
    | some x, some y =>
      match insertDotRow db req.sessionId x y (normalizeHex sess.colorHex)
          .blind (effKey req.clientDotId) with
      | some db2 => (.needUpdateBlind sess, db2)
      | none => (.refetchAfterDup, db)
    | _, _ => (.done .serverError, db)
  | .refetchAfterDup =>
    -- lines 144-159: duplicate key, return current snapshot (500 if missing).
    match findSession db req.sessionId with
    | some cur => (.done (.ok (sessionToDTO cur)), db)
    | none => (.done .serverError, db)
  | .needUpdateBlind sess =>
    -- lines 171-199: absolute write of both counters computed from the row
    -- fetched at the start of the request.
    let newUsed := sess.blindDotsUsed + 1
    let db2 := updateSession db req.sessionId
      (fun s => { s with blindDotsUsed := newUsed, revealed := decide (10 ≤ newUsed) })
    match findSession db2 req.sessionId with
    | some upd => (.done (.ok (sessionToDTO upd)), db2)
    | none => (.done .serverError, db2)
  | .needInsertPaid sess =>
    -- lines 216-228: the paid insert carries NO client_dot_id.
    match req.x, req.y with
    | some x, some y =>
      match insertDotRow db req.sessionId x y (normalizeHex sess.colorHex)
          .paid none with
      | some db2 => (.needUpdatePaid sess, db2)
      | none => (.done .serverError, db)
    | _, _ => (.done .serverError, db)
  | .needUpdatePaid sess =>
    -- lines 239-254: absolute write computed from the stale row.
    let db2 := updateSession db req.sessionId
      (fun s => { s with credits := sess.credits - 1 })
    match findSession db2 req.sessionId with
    | some upd => (.done (.ok (sessionToDTO upd)), db2)
    | none => (.done .serverError, db2)
  | .done r => (.done r, db)

/-- Run the handler machine to completion; five steps always suffice, the fuel
only serves structural termination. -/
def placeLoop (req : PlaceReq) : Nat → TState → DB → PlaceResult × DB
  | 0, _, db => (.serverError, db)
  | Nat.succ _, .done r, db => (r, db)
  | Nat.succ n, t, db =>
    let p := tstep req t db
    placeLoop req n p.1 p.2

/-- Sequential semantics of POST src/app/api/dots/place/route.ts. -/
def placeOne (req : PlaceReq) (db : DB) : PlaceResult × DB :=
  placeLoop req 6 .start db

/-- One proposed placement of the batch request.  `clientDotId` is the raw JSON
string; an absent or empty value is falsy in JS and is modelled as `""`. -/
structure BatchDot where
  x : Option Rat
  y : Option Rat
  clientDotId : String
deriving DecidableEq, Repr

/-- Request body of the batch route. -/
structure BatchReq where
  sessionId : String
  dots : List BatchDot
deriving DecidableEq, Repr

/-- Outcomes of the batch route src/app/api/dots/place-batch/route.ts.  Unlike
the single route, its `INSUFFICIENT_CREDITS` rejection does carry a snapshot. -/
inductive BatchResult where
  | badRequest (msg : String)
  | notFound
  | noFreeDots (session : BatchSessionDTO) (accepted : List DotDTO)
  | insufficientCredits (session : BatchSessionDTO)
  | ok (session : BatchSessionDTO) (accepted : List DotDTO)
  | serverError
deriving DecidableEq, Repr

/-- Per-dot validation loop of the batch route (lines 18-32): first failing dot
decides the error message; field checks precede the range check. -/
def validateBatchDots : List BatchDot → Option String
  | [] => none
  | d :: rest =>
    match d.x, d.y with
    | some x, some y =>
      if d.clientDotId = "" then
        some "Each dot must have x, y (numbers) and clientDotId (string)"
      else if x < 0 ∨ 1 < x ∨ y < 0 ∨ 1 < y then
        some "Coordinates must be in range [0,1]"
      else validateBatchDots rest
    | _, _ => some "Each dot must have x, y (numbers) and clientDotId (string)"

/-- The batch insert loop (lines 148-185 and 265-302): each dot is inserted
individually; on a unique-constraint violation the existing row is fetched and
pushed onto `insertedDots` all the same.  Returns the final store and the
`insertedDots` list in push order. -/
def insertBatchDots (sid : String) (hex : String) (ph : Phase) :
    List BatchDot → DB → DB × List Dot
  | [], db => (db, [])
  | d :: rest, db =>
    match d.x, d.y with
    | some x, some y =>
      match insertDotRow db sid x y hex ph (some d.clientDotId) with
      | some db2 =>
        let inserted : Dot := ⟨db.nextId, sid, x, y, hex, ph, some d.clientDotId, db.nextId⟩
        let p := insertBatchDots sid hex ph rest db2
        (p.1, inserted :: p.2)
      | none =>
        match findDotByKey db sid d.clientDotId with
        | some existing =>
          let p := insertBatchDots sid hex ph rest db
          (p.1, existing :: p.2)
        | none =>
          insertBatchDots sid hex ph rest db
    | _, _ => insertBatchDots sid hex ph rest db

/-- Sequential semantics of POST src/app/api/dots/place-batch/route.ts. -/
def placeBatch (req : BatchReq) (db : DB) : BatchResult × DB :=
  if req.sessionId = "" ∨ req.dots.isEmpty then
    (.badRequest "sessionId and dots array are required", db)
  else
    match validateBatchDots req.dots with
    | some msg => (.badRequest msg, db)
    | none =>
      match findSession db req.sessionId with
      | none => (.notFound, db)
      | some session =>
        if session.revealed then
          -- revealed branch, lines 232-343
          let acceptCount : Int := min session.credits (req.dots.length : Int)
          if acceptCount = 0 then
            (.insufficientCredits (sessionToBatchDTO session), db)
          else
            let hex := normalizeHex session.colorHex
            let toInsert := req.dots.take acceptCount.toNat
            let p := insertBatchDots req.sessionId hex .paid toInsert db
            let db3 := updateSession p.1 req.sessionId
              (fun s => { s with credits := session.credits - (p.2.length : Int) })
            match findSession db3 req.sessionId with
            | some upd => (.ok (sessionToBatchDTO upd) (p.2.map dotToDTO), db3)
            | none => (.serverError, db3)
        else
          -- blind branch, lines 71-231
          let remainingFree : Int := max 0 (10 - session.blindDotsUsed)
          let acceptCount : Int := min remainingFree (req.dots.length : Int)
          if acceptCount = 0 then
            if 10 ≤ session.blindDotsUsed then
              let db2 := updateSession db req.sessionId
                (fun s => { s with revealed := true })
              match findSession db2 req.sessionId with
              | some upd => (.noFreeDots (sessionToBatchDTO upd) [], db2)
              | none => (.serverError, db2)
            else
              (.noFreeDots (sessionToBatchDTO session) [], db)
          else
            let hex := normalizeHex session.colorHex
            let toInsert := req.dots.take acceptCount.toNat
            let p := insertBatchDots req.sessionId hex .blind toInsert db
            let newUsed := session.blindDotsUsed + (p.2.length : Int)
            let db3 := updateSession p.1 req.sessionId
              (fun s => { s with blindDotsUsed := newUsed,
                                 revealed := decide (10 ≤ newUsed) })
            match findSession db3 req.sessionId with
            | some upd => (.ok (sessionToBatchDTO upd) (p.2.map dotToDTO), db3)
            | none => (.serverError, db3)

/-- Outcomes of the explicit reveal route src/app/api/session/reveal/route.ts. -/
inductive RevealResult where
  | badRequest
  | notFound
  | quotaNotMet
  | ok (session : SessionDTO)
  | serverError
deriving DecidableEq, Repr

/-- Sequential semantics of POST src/app/api/session/reveal/route.ts. -/
def revealRoute (sessionId : String) (db : DB) : RevealResult × DB :=
  if sessionId = "" then (.badRequest, db)
  else
    match findSession db sessionId with
    | none => (.notFound, db)
    | some session =>
      if session.blindDotsUsed < 10 then (.quotaNotMet, db)
      else
        let db2 := updateSession db sessionId (fun s => { s with revealed := true })
        match findSession db2 sessionId with
        | some upd => (.ok (sessionToDTO upd), db2)
        | none => (.serverError, db2)

/-- A pair of in-flight single-placement requests over one shared store. -/
structure TwoConfig where
  t1 : TState
  t2 : TState
  db : DB
deriving DecidableEq, Repr

/-- Interleaved execution: the scheduler picks which request performs its next
atomic database access (`true` = first request).  Completed requests stay
done. -/
def twoStep (r1 r2 : PlaceReq) (c : TwoConfig) (choice : Bool) : TwoConfig :=
  if choice then
    let p := tstep r1 c.t1 c.db
    ⟨p.1, c.t2, p.2⟩
  else
    let p := tstep r2 c.t2 c.db
    ⟨c.t1, p.1, p.2⟩

/-- Run two concurrent single-placement requests under a given schedule. -/
def runTwo (r1 r2 : PlaceReq) (sched : List Bool) (c : TwoConfig) : TwoConfig :=
  sched.foldl (twoStep r1 r2) c

/-- True when the handler has produced its response. -/
def TState.isDone : TState → Bool
  | .done _ => true
  | _ => false

/-- Response of a finished handler, if any. -/
def TState.result : TState → Option PlaceResult
  | .done r => some r
  | _ => none

/-- Count of stored free-phase placements of one participant; the spec's
invariant relates this to `blind_dots_used`. -/
def countBlindDots (db : DB) (sid : String) : Nat :=
  (db.dots.filter (fun d => d.sessionId == sid && d.phase == Phase.blind)).length

/-- Count of stored paid-phase placements of one participant. -/
def countPaidDots (db : DB) (sid : String) : Nat :=
  (db.dots.filter (fun d => d.sessionId == sid && d.phase == Phase.paid)).length

/-- The ledger invariant of the spec (data model section): `revealed` holds
whenever `blind_dots_used` has reached the free quota of 10. -/
def QuotaRevealInv (db : DB) : Prop :=
  ∀ s ∈ db.sessions, 10 ≤ s.blindDotsUsed → s.revealed = true

instance : DecidablePred QuotaRevealInv := fun db =>
  inferInstanceAs (Decidable (∀ s ∈ db.sessions, 10 ≤ s.blindDotsUsed → s.revealed = true))

/-- A server request of the placement gateway, for stating invariants over
arbitrary request sequences. -/
inductive Request where
  | place (r : PlaceReq)
  | batch (r : BatchReq)
  | reveal (sid : String)
deriving DecidableEq, Repr

/-- Effect of one request on the store (response discarded). -/
def applyRequest (db : DB) : Request → DB
  | .place r => (placeOne r db).2
  | .batch r => (placeBatch r db).2
  | .reveal sid => (revealRoute sid db).2

/-- Effect of a request sequence on the store. -/
def runRequests (db : DB) (rs : List Request) : DB :=
  rs.foldl applyRequest db

/-- Client-side session record (interface Session, src/app/page.tsx). -/
structure ClientSession where
  sessionId : String
  colorName : String
  colorHex : String
  blindDotsUsed : Int
  revealed : Bool
  credits : Int
deriving DecidableEq, Repr

/-- Client-side dot record (interface Dot, src/app/page.tsx); optional fields
are absent (`undefined`) on purely optimistic dots. -/
structure ClientDot where
  sessionId : Option String
  x : Rat
  y : Rat
  colorHex : String
  phase : Phase
  createdAt : Option String
  clientDotId : Option String
deriving DecidableEq, Repr

/-- Client reducer state (interface AppState, src/app/page.tsx). -/
structure AppState where
  session : Option ClientSession
  optimistic : List ClientDot
  mineServer : List ClientDot
  allServer : List ClientDot
  hydratedMine : Bool
deriving DecidableEq, Repr

/-- Client reducer actions (type AppAction, src/app/page.tsx). -/
inductive AppAction where
  | sessionSet (session : ClientSession)
  | optimisticAdd (dot : ClientDot)
  | optimisticRemove (clientDotId : String)
  | mineSet (dots : List ClientDot)
  | allSet (dots : List ClientDot)
deriving DecidableEq, Repr

/-- The client reconciliation reducer (appReducer, src/app/page.tsx lines
41-74).  JS strict equality on possibly-undefined `clientDotId` fields is
Option equality.  The MINE_SET case of the source computes a local `merged`
list (line 58) that is never used afterwards; it has no effect and is not
modelled. -/
def appReducer (state : AppState) (action : AppAction) : AppState :=
  match action with
  | .sessionSet session => { state with session := some session }
  | .optimisticAdd dot => { state with optimistic := state.optimistic ++ [dot] }
  | .optimisticRemove clientDotId =>
    { state with optimistic :=
        state.optimistic.filter (fun d => d.clientDotId != some clientDotId) }
  | .mineSet dots =>
    { state with
        mineServer := dots,
        optimistic := state.optimistic.filter
          (fun opt => ¬ dots.any (fun server => server.clientDotId == opt.clientDotId)),
        hydratedMine := true }
  | .allSet dots => { state with allServer := dots }

/-- The closed set of allowed color labels
(ALLOWED_COLORS, src/lib/color-pools.ts line 162). -/
def ALLOWED_COLORS : List String :=
  ["blue", "red", "green", "yellow", "purple", "orange", "pink", "teal"]

/-- Label canonicalization of the init route (line 18) and of getAvailableHex
(line 170): trim surrounding whitespace, then lowercase. -/
def canonicalColor (s : String) : String :=
  jsToLower (jsTrim s)

/-- Value of one hex digit, case-insensitive (the regex `[a-f\d]` with the `i`
flag in hexToRgb, src/lib/color-pools.ts line 16). -/
def hexDigitVal (c : Char) : Option Nat :=
  if c.isDigit then some (c.toNat - ('0').toNat)
  else if ('a') ≤ c ∧ c ≤ ('f') then some (c.toNat - ('a').toNat + 10)
  else if ('A') ≤ c ∧ c ≤ ('F') then some (c.toNat - ('A').toNat + 10)
  else none

/-- Parse `#rrggbb` after normalization
(hexToRgb, src/lib/color-pools.ts lines 14-25). -/
def hexToRgb (hex : String) : Option (Nat × Nat × Nat) :=
  let normalized := normalizeHex hex
  let body := if jsStartsWith normalized "#" then String.mk (normalized.data.drop 1)
    else normalized
  match body.data with
  | [a, b, c, d, e, f] =>
    match hexDigitVal a, hexDigitVal b, hexDigitVal c,
          hexDigitVal d, hexDigitVal e, hexDigitVal f with
    | some a1, some a2, some b1, some b2, some c1, some c2 =>
      some (a1 * 16 + a2, b1 * 16 + b2, c1 * 16 + c2)
    | _, _, _, _, _, _ => none
  | _ => none

/-- Brightness window check (hasValidBrightness with calculateBrightness,
src/lib/color-pools.ts lines 54-69).  The source computes the weighted
brightness `0.299*r + 0.587*g + 0.114*b` and requires it to lie in [15, 235];
with integer channels that is exactly the integer inequality below, scaled by
1000 (stated division-free so the kernel can evaluate it; the float64 weights
of the source differ from the exact decimals by under 1e-16, far from the
thresholds on integer inputs). -/
def hasValidBrightness (hex : String) : Bool :=
  match hexToRgb hex with
  | none => false
  | some (r, g, b) =>
    decide (15000 ≤ 299 * r + 587 * g + 114 * b ∧
            299 * r + 587 * g + 114 * b ≤ 235000)

/-- Scan of a color pool for the first free hex
(the for-loop of getAvailableHex, src/lib/color-pools.ts lines 187-192). -/
def getAvailableHexAux (normalizedUsed : List String) : List String → Option String
  | [] => none
  | hex :: rest =>
    let normalized := normalizeHex hex
    if ¬ normalizedUsed.contains normalized ∧ hasValidBrightness normalized then
      some normalized
    else getAvailableHexAux normalizedUsed rest

/-- Free-hex allocation (getAvailableHex, src/lib/color-pools.ts lines
165-195).  `pools` stands for the module-level constant COLOR_POOLS, whose
construction (sanitizePool) filters the raw literal pools through a float64
sRGB-luminance computation (`Math.pow(x, 2.4)`, lines 29-50) that has no exact
rational embedding; every theorem below therefore quantifies over the sanitized
pools, which only makes the statements stronger. -/
def getAvailableHex (pools : String → List String) (colorName : String)
    (usedHexes : List String) : Option String :=
  let canonical := canonicalColor colorName
  if ¬ ALLOWED_COLORS.contains canonical then none
  else
    let pool := pools canonical
    if pool.isEmpty then none
    else
      let normalizedUsed := (usedHexes.map normalizeHex).filter (fun h => h ≠ "")
      getAvailableHexAux normalizedUsed pool

/-- Outcomes of the session-init route src/app/api/session/init/route.ts. -/
inductive InitResult where
  | badRequest
  | invalidColor
  | colorFull
  | ok (session : SessionDTO)
  | serverError
deriving DecidableEq, Repr

/-- The used-hex fetch of the init route (lines 33-48 and 67-73): all stored
`color_hex` values, normalized, JS-falsy (empty) strings dropped. -/
def usedHexesOf (db : DB) : List String :=
  ((db.sessions.map Session.colorHex).map normalizeHex).filter (fun h => h ≠ "")

/-- The insert-with-retry loop of the init route (lines 63-157): re-fetch used
hexes, pick a candidate, insert; a unique-constraint violation on
`sessions.color_hex` retries, up to 10 attempts (exhaustion reports the pool
full, lines 159-164). -/
def initAttemptLoop (pools : String → List String) (canonical sid : String) :
    Nat → DB → InitResult × DB
  | 0, db => (.colorFull, db)
  | Nat.succ n, db =>
    let currentUsed := usedHexesOf db
    match getAvailableHex pools canonical currentUsed with
    | none => (.colorFull, db)
    | some candidateHex =>
      if (db.sessions.map Session.colorHex).contains candidateHex then
        initAttemptLoop pools canonical sid n db
      else
        let row : Session := ⟨sid, canonical, candidateHex, 0, false, 0⟩
        (.ok (sessionToDTO row),
         { db with sessions := db.sessions ++ [row], nextId := db.nextId + 1 })

/-- Sequential semantics of POST src/app/api/session/init/route.ts.
`colorName` is `none` when the JSON field is missing or not a string; the
session id (`uuidv4()`, line 61) is minted from the fresh-id counter. -/
def initParticipant (pools : String → List String) (colorName : Option String)
    (db : DB) : InitResult × DB :=
  match colorName with
  | none => (.badRequest, db)
  | some c =>
    if c = "" then (.badRequest, db)
    else
      let canonical := canonicalColor c
      if ¬ ALLOWED_COLORS.contains canonical then (.invalidColor, db)
      else
        match getAvailableHex pools canonical (usedHexesOf db) with
        | none => (.colorFull, db)
        | some _ =>
          initAttemptLoop pools canonical ("session-" ++ toString db.nextId) 10 db

/-- Response classifier: did the single route accept the placement? -/
def PlaceResult.isAccepted : PlaceResult → Bool
  | .ok _ => true
  | _ => false

/-- Response classifier: is the batch response the plain success shape (no
error field)? -/
def BatchResult.isOk : BatchResult → Bool
  | .ok _ _ => true
  | _ => false

/-- Number of accepted items reported by a batch response. -/
def BatchResult.acceptedCount : BatchResult → Nat
  | .ok _ accepted => accepted.length
  | .noFreeDots _ accepted => accepted.length
  | _ => 0

/-- An invalid single-placement request: a coordinate missing / not a number,
or out of the closed unit interval. -/
def PlaceReqInvalid (req : PlaceReq) : Prop :=
  req.x = none ∨ req.y = none ∨
  (∃ x, req.x = some x ∧ (x < 0 ∨ 1 < x)) ∨
  (∃ y, req.y = some y ∧ (y < 0 ∨ 1 < y))

/-- An invalid batch request: some listed dot has a coordinate missing / not a
number, or out of the closed unit interval. -/
def BatchReqInvalid (req : BatchReq) : Prop :=
  ∃ d ∈ req.dots, d.x = none ∨ d.y = none ∨
    (∃ x, d.x = some x ∧ (x < 0 ∨ 1 < x)) ∨
    (∃ y, d.y = some y ∧ (y < 0 ∨ 1 < y))

/-- A batch dot that passes the per-dot validation of the batch route. -/
def BatchDotValid (d : BatchDot) : Prop :=
  (∃ x, d.x = some x ∧ 0 ≤ x ∧ x ≤ 1) ∧
  (∃ y, d.y = some y ∧ 0 ≤ y ∧ y ≤ 1) ∧
  d.clientDotId ≠ ""

/-- The rows a run of the batch insert loop adds when every key is new: one
fresh row per proposed dot, ids drawn in submission order. -/
def freshRows (sid hex : String) (ph : Phase) : List BatchDot → Nat → List Dot
  | [], _ => []
  | d :: rest, n =>
    match d.x, d.y with
    | some x, some y =>
      ⟨n, sid, x, y, hex, ph, some d.clientDotId, n⟩ :: freshRows sid hex ph rest (n + 1)
    | _, _ => freshRows sid hex ph rest n

def c1DB : DB := ⟨[⟨"w1", "blue", "#00f", 3, false, 0⟩], [], 0⟩

def c3DB : DB := ⟨[⟨"w3", "teal", "#008080", 9, false, 0⟩], [], 0⟩

def c6DB : DB := ⟨[⟨"w6", "red", "#f00", 10, true, 0⟩], [], 0⟩

def c6DB2 : DB := ⟨[⟨"w6b", "red", "#f00", 10, true, 3⟩], [], 0⟩

def c8DB : DB := ⟨[⟨"w8", "pink", "#f0f", 4, false, 2⟩], [], 0⟩

def c2DB : DB :=
  ⟨[⟨"w2", "blue", "#00f", 10, true, 2⟩],
   [⟨0, "w2", 0, 0, "#00f", .blind, some "k2", 0⟩], 1⟩

def c2DBblind : DB :=
  ⟨[⟨"w2b", "blue", "#00f", 1, false, 5⟩],
   [⟨0, "w2b", 0, 0, "#00f", .blind, some "k2b", 0⟩], 1⟩

def c4DB : DB :=
  ⟨[⟨"w4", "green", "#0f0", 1, false, 0⟩],
   [⟨0, "w4", 0, 0, "#0f0", .blind, some "k4", 0⟩], 1⟩

def c9State : AppState :=
  ⟨some ⟨"w9", "blue", "#00f", 5, false, 0⟩, [], [], [], true⟩

def c5sess : Session := ⟨"w5", "blue", "#00f", 9, false, 0⟩

def c5sessAfter : Session := ⟨"w5", "blue", "#00f", 10, true, 0⟩

def c5dot : Dot := ⟨0, "w5", 0, 0, "#00f", .blind, some "k5", 0⟩

def c5dbA : DB := ⟨[c5sess], [], 0⟩

def c5dbB : DB := ⟨[c5sess], [c5dot], 1⟩

def c5dbC : DB := ⟨[c5sessAfter], [c5dot], 1⟩

def c5req : PlaceReq := ⟨"w5", some 0, some 0, some "k5"⟩

def c5start : TwoConfig := ⟨.start, .start, c5dbA⟩

def c5aStates : List TState :=
  [.start, .needLookup c5sess, .needInsertBlind c5sess]

def c5bOther : List TState :=
  [.start, .needLookup c5sess, .needInsertBlind c5sess,
   .refetchAfterFound c5sess, .refetchAfterDup,
   .done (.ok (sessionToDTO c5sess))]

def c5cOther : List TState :=
  c5bOther ++ [.done .insufficientCredits, .done (.ok (sessionToDTO c5sessAfter))]

/-- Reachable configurations of two concurrent same-key requests started at one
free unit left and zero credits. -/
def c5configs : List TwoConfig :=
  (c5aStates.flatMap (fun a => c5aStates.map (fun b => (⟨a, b, c5dbA⟩ : TwoConfig))))
  ++ (c5bOther.map (fun o => (⟨.needUpdateBlind c5sess, o, c5dbB⟩ : TwoConfig)))
  ++ (c5bOther.map (fun o => (⟨o, .needUpdateBlind c5sess, c5dbB⟩ : TwoConfig)))
  ++ (c5cOther.map (fun o => (⟨.done (.ok (sessionToDTO c5sessAfter)), o, c5dbC⟩ : TwoConfig)))
  ++ (c5cOther.map (fun o => (⟨o, .done (.ok (sessionToDTO c5sessAfter)), c5dbC⟩ : TwoConfig)))

def c7DB : DB := ⟨[⟨"w7", "blue", "#00f", 7, false, 0⟩], [], 0⟩

def c7dots : List BatchDot :=
  [⟨some 0, some 0, "a"⟩, ⟨some 0, some 0, "b"⟩, ⟨some 0, some 0, "c"⟩,
   ⟨some 0, some 0, "d"⟩, ⟨some 0, some 0, "e"⟩, ⟨some 0, some 0, "f"⟩,
   ⟨some 0, some 0, "g"⟩, ⟨some 0, some 0, "h"⟩, ⟨some 0, some 0, "i"⟩,
   ⟨some 0, some 0, "j"⟩, ⟨some 0, some 0, "kk"⟩, ⟨some 0, some 0, "l"⟩,
   ⟨some 0, some 0, "m"⟩, ⟨some 0, some 0, "n"⟩, ⟨some 0, some 0, "o"⟩]

def c10pools : String → List String := fun _ => ["#0000ff"]

def c10DB : DB := ⟨[], [], 0⟩

lemma find?_sessions_map_update (sid : String) (f : Session → Session)
    (hf : ∀ s, (f s).sessionId = s.sessionId) :
    ∀ l : List Session,
      (l.map (fun s => if s.sessionId == sid then f s else s)).find?
          (fun s => s.sessionId == sid)
        = (l.find? (fun s => s.sessionId == sid)).map f := by
  intro l
  induction l with
  | nil => rfl
  | cons a t ih =>
    simp only [List.map_cons]
    cases h : (a.sessionId == sid) with
    | true =>
      have hfa : ((f a).sessionId == sid) = true := by
        have h2 : a.sessionId = sid := by simpa using h
        simp [hf, h2]
      rw [if_pos rfl]
      simp only [List.find?, hfa, h]
      rfl
    | false =>
      rw [if_neg (by simp : ¬ false = true)]
      simp only [List.find?, h, ih]

lemma findSession_updateSession (db : DB) (sid : String) (f : Session → Session)
    (hf : ∀ s, (f s).sessionId = s.sessionId) :
    findSession (updateSession db sid f) sid = (findSession db sid).map f := by
  unfold findSession updateSession
  exact find?_sessions_map_update sid f hf _

/-- Core characterization: a blind-phase placement with remaining quota and a
fresh (or absent) idempotency key is accepted, inserts one blind dot and bumps
the counter, revealing at 10. -/
lemma place_blind_accept
    (db : DB) (sid : String) (x y : Rat) (k : Option String) (s : Session)
    (hsid : ¬ sid = "")
    (hxy : ¬ (x < 0 ∨ 1 < x ∨ y < 0 ∨ 1 < y))
    (hfind : findSession db sid = some s)
    (hrev : s.revealed = false)
    (hused : s.blindDotsUsed < 10)
    (hfresh : ∀ k0, effKey k = some k0 → findDotByKey db sid k0 = none) :
    placeOne ⟨sid, some x, some y, k⟩ db =
      (.ok (sessionToDTO ⟨s.sessionId, s.colorName, s.colorHex,
              s.blindDotsUsed + 1, decide (10 ≤ s.blindDotsUsed + 1), s.credits⟩),
       ⟨db.sessions.map (fun t => if t.sessionId == sid then
            ⟨t.sessionId, t.colorName, t.colorHex,
             s.blindDotsUsed + 1, decide (10 ≤ s.blindDotsUsed + 1), t.credits⟩ else t),
        db.dots ++ [⟨db.nextId, sid, x, y, normalizeHex s.colorHex, .blind, effKey k, db.nextId⟩],
        db.nextId + 1⟩) := by
  have hle : ¬ (10 ≤ s.blindDotsUsed) := by omega
  have hupd := findSession_updateSession
    ⟨db.sessions, db.dots ++ [⟨db.nextId, sid, x, y, normalizeHex s.colorHex, .blind, effKey k, db.nextId⟩], db.nextId + 1⟩
    sid
    (fun t => ⟨t.sessionId, t.colorName, t.colorHex,
       s.blindDotsUsed + 1, decide (10 ≤ s.blindDotsUsed + 1), t.credits⟩)
    (fun t => rfl)
  cases hk : effKey k with
  | none =>
    simp only [placeOne, placeLoop, tstep, hfind, hrev, hk, insertDotRow,
      if_neg hsid, if_neg hxy, if_neg hle]
    simp only [Bool.false_eq_true, if_false]
    rw [hk] at hupd
    rw [hupd]
    unfold findSession at hfind ⊢
    rw [hfind]
    simp [placeLoop, updateSession, sessionToDTO]
  | some k0 =>
    have hf0 := hfresh k0 hk
    simp only [placeOne, placeLoop, tstep, hfind, hrev, hk, insertDotRow, hf0,
      if_neg hsid, if_neg hxy, if_neg hle]
    simp only [Bool.false_eq_true, if_false, Option.isSome_none]
    rw [hf0]
    simp only [placeLoop, tstep, hfind, hrev, hk, insertDotRow, hf0,
      if_neg hsid, if_neg hxy, if_neg hle]
    simp only [Bool.false_eq_true, if_false, Option.isSome_none]
    rw [hk] at hupd
    rw [hupd]
    unfold findSession at hfind ⊢
    rw [hfind]
    simp [placeLoop, updateSession, sessionToDTO]

/-- Blind phase with exhausted quota: distinguished rejection carrying the
current snapshot, store untouched. -/
lemma place_blind_reject
    (db : DB) (sid : String) (x y : Rat) (k : Option String) (s : Session)
    (hsid : ¬ sid = "")
    (hxy : ¬ (x < 0 ∨ 1 < x ∨ y < 0 ∨ 1 < y))
    (hfind : findSession db sid = some s)
    (hrev : s.revealed = false)
    (hused : 10 ≤ s.blindDotsUsed) :
    placeOne ⟨sid, some x, some y, k⟩ db = (.noFreeDots (sessionToDTO s), db) := by
  simp only [placeOne, placeLoop, tstep, hfind, hrev,
    if_neg hsid, if_neg hxy, if_pos hused]
  simp [Bool.false_eq_true]

/-- Blind-phase replay of a stored idempotency key: prior outcome returned,
store untouched. -/
lemma place_blind_replay
    (db : DB) (sid : String) (x y : Rat) (k : Option String) (k0 : String) (s : Session) (d : Dot)
    (hsid : ¬ sid = "")
    (hxy : ¬ (x < 0 ∨ 1 < x ∨ y < 0 ∨ 1 < y))
    (hfind : findSession db sid = some s)
    (hrev : s.revealed = false)
    (hused : s.blindDotsUsed < 10)
    (hk : effKey k = some k0)
    (hdot : findDotByKey db sid k0 = some d) :
    placeOne ⟨sid, some x, some y, k⟩ db = (.ok (sessionToDTO s), db) := by
  have hle : ¬ (10 ≤ s.blindDotsUsed) := by omega
  simp only [placeOne, placeLoop, tstep, hfind, hrev, hk, hdot,
    if_neg hsid, if_neg hxy, if_neg hle]
  simp only [Bool.false_eq_true, if_false]
  rw [hdot]
  simp [placeLoop, tstep, hfind, hk]

/-- Revealed phase with a positive balance: paid placement accepted, balance
decremented by one, the inserted paid dot carries no idempotency key. -/
lemma place_paid_accept
    (db : DB) (sid : String) (x y : Rat) (k : Option String) (s : Session)
    (hsid : ¬ sid = "")
    (hxy : ¬ (x < 0 ∨ 1 < x ∨ y < 0 ∨ 1 < y))
    (hfind : findSession db sid = some s)
    (hrev : s.revealed = true)
    (hcred : 0 < s.credits) :
    placeOne ⟨sid, some x, some y, k⟩ db =
      (.ok (sessionToDTO ⟨s.sessionId, s.colorName, s.colorHex,
              s.blindDotsUsed, s.revealed, s.credits - 1⟩),
       ⟨db.sessions.map (fun t => if t.sessionId == sid then
            ⟨t.sessionId, t.colorName, t.colorHex,
             t.blindDotsUsed, t.revealed, s.credits - 1⟩ else t),
        db.dots ++ [⟨db.nextId, sid, x, y, normalizeHex s.colorHex, .paid, none, db.nextId⟩],
        db.nextId + 1⟩) := by
  have hc : ¬ (s.credits ≤ 0) := by omega
  have hupd := findSession_updateSession
    ⟨db.sessions, db.dots ++ [⟨db.nextId, sid, x, y, normalizeHex s.colorHex, .paid, none, db.nextId⟩], db.nextId + 1⟩
    sid
    (fun t => ⟨t.sessionId, t.colorName, t.colorHex, t.blindDotsUsed, t.revealed, s.credits - 1⟩)
    (fun t => rfl)
  simp only [placeOne, placeLoop, tstep, hfind, hrev, insertDotRow, if_neg hsid,
    if_neg hxy, if_neg hc]
  simp only [Bool.false_eq_true, if_false, if_true]
  rw [hupd]
  unfold findSession at hfind ⊢
  rw [hfind]
  simp [placeLoop, updateSession, sessionToDTO, hrev]

/-- Revealed phase with an empty balance: bare insufficient-credits rejection,
no snapshot attached, store untouched. -/
lemma place_paid_reject
    (db : DB) (sid : String) (x y : Rat) (k : Option String) (s : Session)
    (hsid : ¬ sid = "")
    (hxy : ¬ (x < 0 ∨ 1 < x ∨ y < 0 ∨ 1 < y))
    (hfind : findSession db sid = some s)
    (hrev : s.revealed = true)
    (hcred : s.credits ≤ 0) :
    placeOne ⟨sid, some x, some y, k⟩ db = (.insufficientCredits, db) := by
  simp only [placeOne, placeLoop, tstep, hfind, hrev, if_neg hsid, if_neg hxy,
    if_pos hcred]
  rfl

lemma place_validation (req : PlaceReq) (h : PlaceReqInvalid req) :
    ∀ db : DB, (placeOne req db).2 = db ∧
      ((placeOne req db).1 = .badRequest ∨ (placeOne req db).1 = .invalidCoords) := by
  intro db
  obtain ⟨sid, xo, yo, k⟩ := req
  cases xo with
  | none => cases yo <;> simp [placeOne, placeLoop, tstep]
  | some x =>
    cases yo with
    | none => simp [placeOne, placeLoop, tstep]
    | some y =>
      have hr : x < 0 ∨ 1 < x ∨ y < 0 ∨ 1 < y := by
        rcases h with h | h | ⟨x2, hx2, hr⟩ | ⟨y2, hy2, hr⟩
        · exact absurd h (by simp)
        · exact absurd h (by simp)
        · simp only [Option.some.injEq] at hx2
          subst hx2; tauto
        · simp only [Option.some.injEq] at hy2
          subst hy2; tauto
      by_cases hs : sid = ""
      · simp [placeOne, placeLoop, tstep, hs]
      · simp only [placeOne, placeLoop, tstep, if_neg hs, if_pos hr]
        simp

lemma validateBatchDots_some_of_invalid :
    ∀ (l : List BatchDot) (d : BatchDot), d ∈ l →
      (d.x = none ∨ d.y = none ∨
        (∃ x, d.x = some x ∧ (x < 0 ∨ 1 < x)) ∨
        (∃ y, d.y = some y ∧ (y < 0 ∨ 1 < y))) →
      ∃ msg, validateBatchDots l = some msg := by
  intro l
  induction l with
  | nil => intro d hd; exact absurd hd (by simp)
  | cons a rest ih =>
    intro d hd hinv
    rcases ha1 : a.x with _ | ax
    · exact ⟨"Each dot must have x, y (numbers) and clientDotId (string)",
        by simp [validateBatchDots, ha1]⟩
    · rcases ha2 : a.y with _ | ay
      · exact ⟨"Each dot must have x, y (numbers) and clientDotId (string)",
          by simp [validateBatchDots, ha1, ha2]⟩
      · by_cases hk : a.clientDotId = ""
        · exact ⟨"Each dot must have x, y (numbers) and clientDotId (string)",
            by simp [validateBatchDots, ha1, ha2, hk]⟩
        · by_cases hr : ax < 0 ∨ 1 < ax ∨ ay < 0 ∨ 1 < ay
          · exact ⟨"Coordinates must be in range [0,1]",
              by simp only [validateBatchDots, ha1, ha2, if_neg hk, if_pos hr]⟩
          · have hda : d ≠ a := by
              rintro rfl
              rcases hinv with h | h | ⟨x2, hx2, h2⟩ | ⟨y2, hy2, h2⟩
              · rw [ha1] at h; exact Option.noConfusion h
              · rw [ha2] at h; exact Option.noConfusion h
              · rw [ha1] at hx2
                cases hx2
                exact hr (by tauto)
              · rw [ha2] at hy2
                cases hy2
                exact hr (by tauto)
            have hdrest : d ∈ rest := by
              rcases List.mem_cons.mp hd with h | h
              · exact absurd h hda
              · exact h
            obtain ⟨msg, hmsg⟩ := ih d hdrest hinv
            refine ⟨msg, ?_⟩
            simp only [validateBatchDots, ha1, ha2, if_neg hk, if_neg hr, hmsg]

lemma batch_validation (req : BatchReq) (h : BatchReqInvalid req) :
    ∀ db : DB, (placeBatch req db).2 = db ∧
      ∃ msg, (placeBatch req db).1 = .badRequest msg := by
  intro db
  by_cases h0 : req.sessionId = "" ∨ req.dots = []
  · constructor
    · simp [placeBatch, h0]
    · exact ⟨"sessionId and dots array are required", by simp [placeBatch, h0]⟩
  · obtain ⟨d, hd, hinv⟩ := h
    obtain ⟨msg, hmsg⟩ := validateBatchDots_some_of_invalid req.dots d hd hinv
    constructor
    · simp [placeBatch, h0, hmsg]
    · exact ⟨msg, by simp [placeBatch, h0, hmsg]⟩

lemma QuotaRevealInv_of_sessions_eq (db db2 : DB) (h : db2.sessions = db.sessions)
    (hdb : QuotaRevealInv db) : QuotaRevealInv db2 := by
  intro s hs
  rw [h] at hs
  exact hdb s hs

lemma inv_updateSession (db : DB) (sid : String) (f : Session → Session)
    (hdb : QuotaRevealInv db)
    (hf : ∀ s ∈ db.sessions, 10 ≤ (f s).blindDotsUsed → (f s).revealed = true) :
    QuotaRevealInv (updateSession db sid f) := by
  intro s hs
  unfold updateSession at hs
  simp only [List.mem_map] at hs
  obtain ⟨t, ht, heq⟩ := hs
  subst heq
  by_cases hm : (t.sessionId == sid) = true
  · rw [if_pos hm]
    exact hf t ht
  · rw [if_neg hm]
    exact hdb t ht

lemma insertDotRow_some (db : DB) (sid : String) (x y : Rat) (hex : String)
    (ph : Phase) (key : Option String) (db2 : DB)
    (h : insertDotRow db sid x y hex ph key = some db2) :
    db2 = ⟨db.sessions,
      db.dots ++ [⟨db.nextId, sid, x, y, hex, ph, key, db.nextId⟩],
      db.nextId + 1⟩ := by
  simp only [insertDotRow] at h
  cases key with
  | none =>
    simp only [Bool.false_eq_true, if_false, Option.some.injEq] at h
    exact h.symm
  | some k =>
    dsimp only at h
    cases hf : findDotByKey db sid k with
    | some d =>
      rw [hf] at h
      simp at h
    | none =>
      rw [hf] at h
      simp only [Option.isSome_none, Bool.false_eq_true, if_false,
        Option.some.injEq] at h
      exact h.symm

lemma tstep_snd_inv (req : PlaceReq) (t : TState) (db : DB)
    (hdb : QuotaRevealInv db) : QuotaRevealInv (tstep req t db).2 := by
  cases t with
  | start =>
    simp only [tstep]
    repeat' split
    all_goals exact hdb
  | needLookup s =>
    simp only [tstep]
    repeat' split
    all_goals exact hdb
  | refetchAfterFound s =>
    simp only [tstep]
    repeat' split
    all_goals exact hdb
  | refetchAfterDup =>
    simp only [tstep]
    repeat' split
    all_goals exact hdb
  | done r => exact hdb
  | needInsertBlind s =>
    simp only [tstep]
    repeat' split
    all_goals try exact hdb
    next db2 heq =>
      exact QuotaRevealInv_of_sessions_eq db db2
        (by rw [insertDotRow_some _ _ _ _ _ _ _ db2 heq]) hdb
  | needInsertPaid s =>
    simp only [tstep]
    repeat' split
    all_goals try exact hdb
    next db2 heq =>
      exact QuotaRevealInv_of_sessions_eq db db2
        (by rw [insertDotRow_some _ _ _ _ _ _ _ db2 heq]) hdb
  | needUpdateBlind s =>
    have h2 : QuotaRevealInv (updateSession db req.sessionId
        (fun t => ⟨t.sessionId, t.colorName, t.colorHex,
          s.blindDotsUsed + 1, decide (10 ≤ s.blindDotsUsed + 1), t.credits⟩)) := by
      refine inv_updateSession db req.sessionId _ hdb ?_
      intro u hu h10
      simpa using h10
    simp only [tstep]
    repeat' split
    all_goals exact h2
  | needUpdatePaid s =>
    have h2 : QuotaRevealInv (updateSession db req.sessionId
        (fun t => ⟨t.sessionId, t.colorName, t.colorHex,
          t.blindDotsUsed, t.revealed, s.credits - 1⟩)) := by
      refine inv_updateSession db req.sessionId _ hdb ?_
      intro u hu h10
      exact hdb u hu h10
    simp only [tstep]
    repeat' split
    all_goals exact h2

lemma placeLoop_snd_inv (req : PlaceReq) :
    ∀ (n : Nat) (t : TState) (db : DB), QuotaRevealInv db →
      QuotaRevealInv (placeLoop req n t db).2 := by
  intro n
  induction n with
  | zero => intro t db h; exact h
  | succ n ih =>
    intro t db h
    cases t with
    | done r => exact h
    | start => simp only [placeLoop]; exact ih _ _ (tstep_snd_inv _ _ _ h)
    | needLookup s => simp only [placeLoop]; exact ih _ _ (tstep_snd_inv _ _ _ h)
    | needInsertBlind s => simp only [placeLoop]; exact ih _ _ (tstep_snd_inv _ _ _ h)
    | refetchAfterFound s => simp only [placeLoop]; exact ih _ _ (tstep_snd_inv _ _ _ h)
    | refetchAfterDup => simp only [placeLoop]; exact ih _ _ (tstep_snd_inv _ _ _ h)
    | needUpdateBlind s => simp only [placeLoop]; exact ih _ _ (tstep_snd_inv _ _ _ h)
    | needInsertPaid s => simp only [placeLoop]; exact ih _ _ (tstep_snd_inv _ _ _ h)
    | needUpdatePaid s => simp only [placeLoop]; exact ih _ _ (tstep_snd_inv _ _ _ h)

lemma placeOne_snd_inv (req : PlaceReq) (db : DB) (hdb : QuotaRevealInv db) :
    QuotaRevealInv (placeOne req db).2 :=
  placeLoop_snd_inv req 6 .start db hdb

lemma insertBatchDots_fst_sessions (sid hex : String) (ph : Phase) :
    ∀ (l : List BatchDot) (db : DB),
      (insertBatchDots sid hex ph l db).1.sessions = db.sessions := by
  intro l
  induction l with
  | nil => intro db; rfl
  | cons d rest ih =>
    intro db
    simp only [insertBatchDots]
    repeat' split
    all_goals try exact ih db
    next db2 heq =>
      rw [ih db2, insertDotRow_some _ _ _ _ _ _ _ db2 heq]

lemma placeBatch_snd_inv (req : BatchReq) (db : DB) (hdb : QuotaRevealInv db) :
    QuotaRevealInv (placeBatch req db).2 := by
  simp only [placeBatch]
  repeat' split
  all_goals try exact hdb
  all_goals first
    | (apply inv_updateSession _ _ _ hdb; intro u hu h10; rfl)
    | (apply inv_updateSession _ _ _
         (QuotaRevealInv_of_sessions_eq _ _ (insertBatchDots_fst_sessions _ _ _ _ _) hdb)
       ; intro u hu h10
       ; first
         | simpa using h10
         | exact QuotaRevealInv_of_sessions_eq _ _
             (insertBatchDots_fst_sessions _ _ _ _ _) hdb u hu h10)

lemma revealRoute_snd_inv (sid : String) (db : DB) (hdb : QuotaRevealInv db) :
    QuotaRevealInv (revealRoute sid db).2 := by
  simp only [revealRoute]
  repeat' split
  all_goals try exact hdb
  all_goals (apply inv_updateSession _ _ _ hdb; intro u hu h10; rfl)

lemma applyRequest_inv (db : DB) (r : Request) (hdb : QuotaRevealInv db) :
    QuotaRevealInv (applyRequest db r) := by
  cases r with
  | place r => exact placeOne_snd_inv r db hdb
  | batch r => exact placeBatch_snd_inv r db hdb
  | reveal sid => exact revealRoute_snd_inv sid db hdb

lemma runRequests_inv : ∀ (rs : List Request) (db : DB), QuotaRevealInv db →
    QuotaRevealInv (runRequests db rs) := by
  intro rs
  induction rs with
  | nil => intro db h; exact h
  | cons r rest ih =>
    intro db h
    simp only [runRequests, List.foldl_cons]
    exact ih _ (applyRequest_inv db r h)

lemma validateBatchDots_none_of_valid :
    ∀ l : List BatchDot, (∀ d ∈ l, BatchDotValid d) → validateBatchDots l = none := by
  intro l
  induction l with
  | nil => intro _; rfl
  | cons a rest ih =>
    intro h
    obtain ⟨⟨x, hx, hx0, hx1⟩, ⟨y, hy, hy0, hy1⟩, hk⟩ := h a (by simp)
    have hr : ¬ (x < 0 ∨ 1 < x ∨ y < 0 ∨ 1 < y) := by
      intro hcon
      rcases hcon with h2 | h2 | h2 | h2 <;> linarith
    simp only [validateBatchDots, hx, hy, if_neg hk, if_neg hr]
    exact ih (fun d hd => h d (by simp [hd]))

lemma freshRows_length (sid hex : String) (ph : Phase) :
    ∀ (l : List BatchDot) (n : Nat), (∀ d ∈ l, ∃ x y, d.x = some x ∧ d.y = some y) →
      (freshRows sid hex ph l n).length = l.length := by
  intro l
  induction l with
  | nil => intro n _; rfl
  | cons a rest ih =>
    intro n h
    obtain ⟨x, y, hx, hy⟩ := h a (by simp)
    simp only [freshRows, hx, hy, List.length_cons]
    rw [ih (n + 1) (fun d hd => h d (by simp [hd]))]

lemma findDotByKey_append_one (db : DB) (sid k : String) (d : Dot)
    (hd : ¬ (d.sessionId == sid && d.clientDotId == some k) = true) :
    findDotByKey ⟨db.sessions, db.dots ++ [d], db.nextId + 1⟩ sid k
      = findDotByKey db sid k := by
  unfold findDotByKey
  simp only [List.find?_append]
  cases hfa : db.dots.find? (fun e => e.sessionId == sid && e.clientDotId == some k) with
  | some e => simp [hfa]
  | none =>
    have hd2 : (d.sessionId == sid && d.clientDotId == some k) = false := by
      simpa using hd
    simp only [hfa, Option.none_or, List.find?, hd2]

lemma insertBatchDots_all_fresh (sid hex : String) (ph : Phase) :
    ∀ (l : List BatchDot) (db : DB),
      (∀ d ∈ l, ∃ x y, d.x = some x ∧ d.y = some y) →
      (∀ d ∈ l, findDotByKey db sid d.clientDotId = none) →
      (l.map BatchDot.clientDotId).Nodup →
      insertBatchDots sid hex ph l db =
        (⟨db.sessions, db.dots ++ freshRows sid hex ph l db.nextId,
          db.nextId + l.length⟩,
         freshRows sid hex ph l db.nextId) := by
  intro l
  induction l with
  | nil =>
    intro db _ _ _
    simp [insertBatchDots, freshRows]
  | cons a rest ih =>
    intro db hv hfresh hnodup
    obtain ⟨x, y, hx, hy⟩ := hv a (by simp)
    have hfa : findDotByKey db sid a.clientDotId = none := hfresh a (by simp)
    have hins : insertDotRow db sid x y hex ph (some a.clientDotId) =
        some ⟨db.sessions,
          db.dots ++ [⟨db.nextId, sid, x, y, hex, ph, some a.clientDotId, db.nextId⟩],
          db.nextId + 1⟩ := by
      simp only [insertDotRow, hfa, Option.isSome_none, Bool.false_eq_true, if_false]
    have hrest : ∀ d ∈ rest,
        findDotByKey ⟨db.sessions,
          db.dots ++ [⟨db.nextId, sid, x, y, hex, ph, some a.clientDotId, db.nextId⟩],
          db.nextId + 1⟩ sid d.clientDotId = none := by
      intro d hd
      have hne : a.clientDotId ≠ d.clientDotId := by
        intro hcon
        have h1 : a.clientDotId ∈ rest.map BatchDot.clientDotId := by
          rw [hcon]
          exact List.mem_map_of_mem _ hd
        simp only [List.map_cons, List.nodup_cons] at hnodup
        exact hnodup.1 h1
      rw [findDotByKey_append_one]
      · exact hfresh d (by simp [hd])
      · simp [hne]
    simp only [insertBatchDots, hx, hy, hins]
    rw [ih _ (fun d hd => hv d (by simp [hd])) hrest
        (by simpa using (List.nodup_cons.mp (by simpa using hnodup)).2)]
    simp only [freshRows, hx, hy]
    have hlen : db.nextId + 1 + rest.length = db.nextId + (a :: rest).length := by
      simp only [List.length_cons]
      omega
    rw [List.append_assoc, List.singleton_append, hlen]

lemma placeBatch_blind_fresh
    (db : DB) (sid : String) (dots : List BatchDot) (s : Session) (ac : Nat)
    (hsid : ¬ sid = "")
    (hvalid : ∀ d ∈ dots, BatchDotValid d)
    (hfind : findSession db sid = some s)
    (hrev : s.revealed = false)
    (hfresh : ∀ d ∈ dots, findDotByKey db sid d.clientDotId = none)
    (hnodup : (dots.map BatchDot.clientDotId).Nodup)
    (hac : (ac : Int) = min (max 0 (10 - s.blindDotsUsed)) (dots.length : Int))
    (hpos : 0 < ac) :
    placeBatch ⟨sid, dots⟩ db =
      (.ok ⟨s.sessionId, s.blindDotsUsed + (ac : Int),
            decide (10 ≤ s.blindDotsUsed + (ac : Int)), s.credits, s.colorHex⟩
          ((freshRows sid (normalizeHex s.colorHex) .blind (dots.take ac) db.nextId).map dotToDTO),
       ⟨db.sessions.map (fun t => if t.sessionId == sid then
            ⟨t.sessionId, t.colorName, t.colorHex,
             s.blindDotsUsed + (ac : Int),
             decide (10 ≤ s.blindDotsUsed + (ac : Int)), t.credits⟩ else t),
        db.dots ++ freshRows sid (normalizeHex s.colorHex) .blind (dots.take ac) db.nextId,
        db.nextId + ac⟩) := by
  have hne : ¬ dots = [] := by
    intro hcon
    subst hcon
    simp at hac
    omega
  have h0 : ¬ (sid = "" ∨ dots = []) := by tauto
  have hval := validateBatchDots_none_of_valid dots hvalid
  have hsub : ∀ d ∈ dots.take ac, d ∈ dots := fun d hd => List.take_subset ac dots hd
  have hcoords : ∀ d ∈ dots.take ac, ∃ x y, d.x = some x ∧ d.y = some y := by
    intro d hd
    obtain ⟨⟨x, hx, _, _⟩, ⟨y, hy, _, _⟩, _⟩ := hvalid d (hsub d hd)
    exact ⟨x, y, hx, hy⟩
  have hnd2 : ((dots.take ac).map BatchDot.clientDotId).Nodup := by
    rw [List.map_take]
    exact (List.take_sublist ac _).nodup hnodup
  have hike := insertBatchDots_all_fresh sid (normalizeHex s.colorHex) .blind
    (dots.take ac) db hcoords (fun d hd => hfresh d (hsub d hd)) hnd2
  have haclen : ac ≤ dots.length := by
    have h1 : (ac : Int) ≤ (dots.length : Int) := by
      rw [hac]
      exact min_le_right _ _
    exact_mod_cast h1
  have hflen : (freshRows sid (normalizeHex s.colorHex) .blind (dots.take ac) db.nextId).length
      = ac := by
    rw [freshRows_length _ _ _ _ _ hcoords, List.length_take]
    omega
  have hacnz : ¬ (min (max 0 (10 - s.blindDotsUsed)) (dots.length : Int)) = 0 := by
    rw [← hac]
    omega
  have htoNat : (min (max 0 (10 - s.blindDotsUsed)) (dots.length : Int)).toNat = ac := by
    rw [← hac]
    omega
  have hupd := findSession_updateSession
    ⟨db.sessions, db.dots ++ freshRows sid (normalizeHex s.colorHex) .blind (dots.take ac) db.nextId,
      db.nextId + (dots.take ac).length⟩
    sid
    (fun t => ⟨t.sessionId, t.colorName, t.colorHex,
      s.blindDotsUsed + (ac : Int), decide (10 ≤ s.blindDotsUsed + (ac : Int)), t.credits⟩)
    (fun t => rfl)
  have h0b : ¬ (sid = "" ∨ dots.isEmpty = true) := by
    simpa using h0
  simp only [placeBatch, if_neg h0b, hval, hfind, hrev, Bool.false_eq_true, if_false,
    htoNat, if_neg hacnz, hike, hflen]
  rw [hupd]
  unfold findSession at hfind ⊢
  rw [hfind]
  simp [updateSession, sessionToBatchDTO, List.length_take, min_eq_left haclen]

/-- C1: for a placeOne call on an existing, unrevealed participant whose
idempotency key is fresh (or absent), the placement is accepted iff
blind_dots_used (the spec freeQuotaConsumed) is below 10; on accept exactly
one blind (free) placement row is inserted and the counter rises by exactly 1,
revealing when it reaches 10; at or above 10 the call is rejected with the
distinguished NO_FREE_DOTS outcome carrying the current ledger snapshot, and
the store is untouched. -/
theorem c1_free_quota_gate
    (db : DB) (sid : String) (x y : Rat) (k : Option String) (s : Session)
    (hsid : sid ≠ "")
    (hx0 : 0 ≤ x) (hx1 : x ≤ 1) (hy0 : 0 ≤ y) (hy1 : y ≤ 1)
    (hfind : findSession db sid = some s)
    (hrev : s.revealed = false)
    (hfresh : ∀ k0, effKey k = some k0 → findDotByKey db sid k0 = none) :
    ((placeOne ⟨sid, some x, some y, k⟩ db).1.isAccepted = true ↔ s.blindDotsUsed < 10) ∧
    (s.blindDotsUsed < 10 →
      placeOne ⟨sid, some x, some y, k⟩ db =
        (.ok (sessionToDTO ⟨s.sessionId, s.colorName, s.colorHex,
                s.blindDotsUsed + 1, decide (10 ≤ s.blindDotsUsed + 1), s.credits⟩),
         ⟨db.sessions.map (fun t => if t.sessionId == sid then
              ⟨t.sessionId, t.colorName, t.colorHex,
               s.blindDotsUsed + 1, decide (10 ≤ s.blindDotsUsed + 1), t.credits⟩ else t),
          db.dots ++ [⟨db.nextId, sid, x, y, normalizeHex s.colorHex, .blind, effKey k, db.nextId⟩],
          db.nextId + 1⟩)) ∧
    (10 ≤ s.blindDotsUsed →
      placeOne ⟨sid, some x, some y, k⟩ db = (.noFreeDots (sessionToDTO s), db)) := by
  have hxy : ¬ (x < 0 ∨ 1 < x ∨ y < 0 ∨ 1 < y) := by
    intro h
    rcases h with h | h | h | h <;> linarith
  by_cases hu : s.blindDotsUsed < 10
  · have hacc := place_blind_accept db sid x y k s hsid hxy hfind hrev hu hfresh
    refine ⟨?_, fun _ => hacc, fun h10 => absurd h10 (by omega)⟩
    rw [hacc]
    simpa [PlaceResult.isAccepted] using hu
  · have h10 : 10 ≤ s.blindDotsUsed := by omega
    have hrej := place_blind_reject db sid x y k s hsid hxy hfind hrev h10
    refine ⟨?_, fun h => absurd h hu, fun _ => hrej⟩
    rw [hrej]
    simpa [PlaceResult.isAccepted] using hu

/-- Witness for C1 at a concrete store with three consumed units. -/
theorem c1_witness :
    (placeOne ⟨"w1", some 0, some 1, some "key1"⟩ c1DB).1.isAccepted = true
      ↔ (3 : Int) < 10 :=
  (c1_free_quota_gate c1DB "w1" 0 1 (some "key1")
    ⟨"w1", "blue", "#00f", 3, false, 0⟩
    (by decide) (by decide) (by decide) (by decide) (by decide)
    (by decide) (by decide)
    (by
      intro k0 hk
      have hk2 : some "key1" = some k0 := hk
      injection hk2 with hk3
      subst hk3
      rfl)).1

/-- C3: every placeOne, placeBatch and reveal request preserves the invariant
that revealed holds whenever blind_dots_used is at least 10, so the invariant
holds whenever a response is returned and after any request sequence; moreover
the placement that takes the counter from 9 to 10 writes blind_dots_used = 10
and revealed = true in the same session update. -/
theorem c3_reveal_with_quota
    :
    (∀ (db : DB) (r : Request), QuotaRevealInv db → QuotaRevealInv (applyRequest db r)) ∧
    (∀ (db : DB) (rs : List Request), QuotaRevealInv db → QuotaRevealInv (runRequests db rs)) ∧
    (∀ (db : DB) (sid : String) (x y : Rat) (k : Option String) (s : Session),
      sid ≠ "" → 0 ≤ x → x ≤ 1 → 0 ≤ y → y ≤ 1 →
      findSession db sid = some s → s.revealed = false →
      (∀ k0, effKey k = some k0 → findDotByKey db sid k0 = none) →
      s.blindDotsUsed = 9 →
      findSession (placeOne ⟨sid, some x, some y, k⟩ db).2 sid =
        some ⟨s.sessionId, s.colorName, s.colorHex, 10, true, s.credits⟩) := by
  refine ⟨fun db r h => applyRequest_inv db r h,
    fun db rs h => runRequests_inv rs db h, ?_⟩
  intro db sid x y k s hsid hx0 hx1 hy0 hy1 hfind hrev hfresh h9
  have hxy : ¬ (x < 0 ∨ 1 < x ∨ y < 0 ∨ 1 < y) := by
    intro h
    rcases h with h | h | h | h <;> linarith
  have hu : s.blindDotsUsed < 10 := by omega
  have hacc := place_blind_accept db sid x y k s hsid hxy hfind hrev hu hfresh
  rw [hacc]
  have hupd := find?_sessions_map_update sid
    (fun t => ⟨t.sessionId, t.colorName, t.colorHex,
      s.blindDotsUsed + 1, decide (10 ≤ s.blindDotsUsed + 1), t.credits⟩)
    (fun t => rfl) db.sessions
  unfold findSession at hfind ⊢
  simp only [hupd, hfind, Option.map_some]
  rw [h9]
  norm_num

/-- Witness for C3: the invariant survives a placement on a participant with
nine consumed units. -/
theorem c3_witness :
    QuotaRevealInv (applyRequest c3DB (.place ⟨"w3", some 0, some 0, none⟩)) :=
  c3_reveal_with_quota.1 c3DB (.place ⟨"w3", some 0, some 0, none⟩) (by decide)

/-- C6, counterexample: with a revealed participant at zero credits the route
answers the bare Insufficient credits error, which carries no ledger snapshot,
unlike the NO_FREE_DOTS rejection. -/
theorem c6_counterexample :
    placeOne ⟨"w6", some 0, some 0, none⟩ c6DB = (PlaceResult.insufficientCredits, c6DB) := by
  decide

/-- C6 as amended: for a revealed participant a placeOne is accepted iff
credits are positive; on accept exactly one paid placement is inserted (with
no idempotency key) and credits drop by exactly 1; at zero credits the call is
rejected with the distinguished insufficient-credits outcome - which, unlike
the quota-exhausted rejection, carries no snapshot - and the store is
untouched. -/
theorem c6_credit_gate
    (db : DB) (sid : String) (x y : Rat) (k : Option String) (s : Session)
    (hsid : sid ≠ "")
    (hx0 : 0 ≤ x) (hx1 : x ≤ 1) (hy0 : 0 ≤ y) (hy1 : y ≤ 1)
    (hfind : findSession db sid = some s)
    (hrev : s.revealed = true) :
    ((placeOne ⟨sid, some x, some y, k⟩ db).1.isAccepted = true ↔ 0 < s.credits) ∧
    (0 < s.credits →
      placeOne ⟨sid, some x, some y, k⟩ db =
        (.ok (sessionToDTO ⟨s.sessionId, s.colorName, s.colorHex,
                s.blindDotsUsed, s.revealed, s.credits - 1⟩),
         ⟨db.sessions.map (fun t => if t.sessionId == sid then
              ⟨t.sessionId, t.colorName, t.colorHex,
               t.blindDotsUsed, t.revealed, s.credits - 1⟩ else t),
          db.dots ++ [⟨db.nextId, sid, x, y, normalizeHex s.colorHex, .paid, none, db.nextId⟩],
          db.nextId + 1⟩)) ∧
    (s.credits ≤ 0 →
      placeOne ⟨sid, some x, some y, k⟩ db = (.insufficientCredits, db)) := by
  have hxy : ¬ (x < 0 ∨ 1 < x ∨ y < 0 ∨ 1 < y) := by
    intro h
    rcases h with h | h | h | h <;> linarith
  by_cases hc : 0 < s.credits
  · have hacc := place_paid_accept db sid x y k s hsid hxy hfind hrev hc
    refine ⟨?_, fun _ => hacc, fun h0 => absurd h0 (by omega)⟩
    rw [hacc]
    simpa [PlaceResult.isAccepted] using hc
  · have h0 : s.credits ≤ 0 := by omega
    have hrej := place_paid_reject db sid x y k s hsid hxy hfind hrev h0
    refine ⟨?_, fun h => absurd h hc, fun _ => hrej⟩
    rw [hrej]
    simpa [PlaceResult.isAccepted] using hc

/-- Witness for C6 at a concrete revealed participant holding three credits. -/
theorem c6_witness :
    (placeOne ⟨"w6b", some 0, some 1, none⟩ c6DB2).1.isAccepted = true ↔ (0 : Int) < 3 :=
  (c6_credit_gate c6DB2 "w6b" 0 1 none ⟨"w6b", "red", "#f00", 10, true, 3⟩
    (by decide) (by decide) (by decide) (by decide) (by decide)
    (by decide) (by decide)).1

/-- C8: a placeOne or placeBatch request in which some coordinate is missing,
not a number, or outside [0,1] is rejected with a plain validation error
(never a quota outcome) and leaves the store exactly unchanged.  JSON cannot
carry non-finite numbers, so a non-finite coordinate arrives as a non-number
and is caught by the same typeof check. -/
theorem c8_validation_no_side_effects :
    (∀ (req : PlaceReq) (db : DB), PlaceReqInvalid req →
      (placeOne req db).2 = db ∧
      ((placeOne req db).1 = .badRequest ∨ (placeOne req db).1 = .invalidCoords)) ∧
    (∀ (req : BatchReq) (db : DB), BatchReqInvalid req →
      (placeBatch req db).2 = db ∧
      ∃ msg, (placeBatch req db).1 = .badRequest msg) :=
  ⟨fun req db h => place_validation req h db, fun req db h => batch_validation req h db⟩

/-- Witness for C8, Scenario E: a coordinate of 2 yields a validation error
and no ledger mutation. -/
theorem c8_witness :
    (placeOne ⟨"w8", some 2, some 0, none⟩ c8DB).2 = c8DB ∧
    ((placeOne ⟨"w8", some 2, some 0, none⟩ c8DB).1 = .badRequest ∨
     (placeOne ⟨"w8", some 2, some 0, none⟩ c8DB).1 = .invalidCoords) :=
  c8_validation_no_side_effects.1 ⟨"w8", some 2, some 0, none⟩ c8DB
    (Or.inr (Or.inr (Or.inl ⟨2, rfl, Or.inr (by decide)⟩)))

/-- C2, code bug: replaying a stored idempotency key is not idempotent.  In
the revealed phase placeOne never consults clientDotId: resubmitting the
stored key k2 inserts a second (paid) placement and decrements credits from 2
to 1.  And a blind-phase batch replay of the stored key k2b re-increments
blind_dots_used to 2 although the store still holds a single placement. -/
theorem c2_idempotency_broken :
    ((placeOne ⟨"w2", some 0, some 0, some "k2"⟩ c2DB).2.dots.length = 2 ∧
     (findSession (placeOne ⟨"w2", some 0, some 0, some "k2"⟩ c2DB).2 "w2").map
        Session.credits = some 1) ∧
    ((findSession (placeBatch ⟨"w2b", [⟨some 0, some 0, "k2b"⟩]⟩ c2DBblind).2 "w2b").map
        Session.blindDotsUsed = some 2 ∧
     (placeBatch ⟨"w2b", [⟨some 0, some 0, "k2b"⟩]⟩ c2DBblind).2.dots.length = 1) := by
  decide

/-- C4, code bug: after a request sequence consisting of one batch replay of
the already-stored key k4, the ledger shows blind_dots_used = 2 while exactly
one blind placement row exists, refuting the claimed equality between the
counter and the stored free placements (the batch loop counts fetched
duplicates as inserted). -/
theorem c4_count_mismatch :
    (findSession (runRequests c4DB [.batch ⟨"w4", [⟨some 0, some 0, "k4"⟩]⟩]) "w4").map
        Session.blindDotsUsed = some 2 ∧
    countBlindDots (runRequests c4DB [.batch ⟨"w4", [⟨some 0, some 0, "k4"⟩]⟩]) "w4" = 1 := by
  decide

/-- C9, counterexample: adopting a stale snapshot with freeQuotaConsumed = 3
over a held value of 5 regresses the displayed counter: SESSION_SET has no
monotonic-adoption guard. -/
theorem c9_counterexample :
    (appReducer c9State (.sessionSet ⟨"w9", "blue", "#00f", 3, false, 0⟩)).session
        = some ⟨"w9", "blue", "#00f", 3, false, 0⟩ ∧
    ¬ (5 : Int) ≤ 3 := by
  decide

/-- C9 as amended: the SESSION_SET action adopts the incoming snapshot
wholesale and unconditionally, replacing the held session and touching nothing
else, so the displayed counter always equals the most recently dispatched
snapshot, whatever order responses arrive in. -/
theorem c9_wholesale_adoption (state : AppState) (snap : ClientSession) :
    appReducer state (.sessionSet snap) =
      ⟨some snap, state.optimistic, state.mineServer, state.allServer, state.hydratedMine⟩ :=
  rfl

lemma c5_start_mem : c5start ∈ c5configs := by decide

lemma c5_closed : ∀ c ∈ c5configs,
    twoStep c5req c5req c true ∈ c5configs ∧ twoStep c5req c5req c false ∈ c5configs := by
  decide

lemma c5_run_mem (sched : List Bool) : runTwo c5req c5req sched c5start ∈ c5configs := by
  suffices h : ∀ (sched : List Bool) (c : TwoConfig), c ∈ c5configs →
      runTwo c5req c5req sched c ∈ c5configs from h sched c5start c5_start_mem
  intro sched
  induction sched with
  | nil => intro c hc; exact hc
  | cons b rest ih =>
    intro c hc
    simp only [runTwo, List.foldl_cons]
    cases b with
    | true => exact ih _ (c5_closed c hc).1
    | false => exact ih _ (c5_closed c hc).2

/-- C5, counterexample: the accept decision, counter update and insert do not
form one indivisible step.  Two concurrent placeOne requests with distinct
keys and exactly one free unit left can interleave so that both read
blind_dots_used = 9, both are accepted, and two blind placements are stored. -/
theorem c5_counterexample :
    ((runTwo ⟨"w5", some 0, some 0, some "k5a"⟩ ⟨"w5", some 0, some 0, some "k5b"⟩
        [true, false, true, false, true, false, true, false] c5start).t1.result =
      some (.ok ⟨"w5", "blue", "#00f", 10, true, 0⟩)) ∧
    ((runTwo ⟨"w5", some 0, some 0, some "k5a"⟩ ⟨"w5", some 0, some 0, some "k5b"⟩
        [true, false, true, false, true, false, true, false] c5start).t2.result =
      some (.ok ⟨"w5", "blue", "#00f", 10, true, 0⟩)) ∧
    countBlindDots (runTwo ⟨"w5", some 0, some 0, some "k5a"⟩ ⟨"w5", some 0, some 0, some "k5b"⟩
        [true, false, true, false, true, false, true, false] c5start).db "w5" = 2 := by
  decide

/-- C5 as amended: for two concurrent submissions of the same idempotency key
with one free unit left (and no credits), every interleaving stores at most
one blind placement, and once both requests have responded the store holds
exactly one placement with blind_dots_used = 10 and revealed = true.  The
unique index on (session_id, client_dot_id) - not atomicity of the
read-check-insert-update sequence - enforces single admission in the same-key
race. -/
theorem c5_same_key_single_placement (sched : List Bool) :
    countBlindDots (runTwo c5req c5req sched c5start).db "w5" ≤ 1 ∧
    ((runTwo c5req c5req sched c5start).t1.isDone = true ∧
     (runTwo c5req c5req sched c5start).t2.isDone = true →
      (runTwo c5req c5req sched c5start).db = c5dbC) := by
  have hmem := c5_run_mem sched
  have hall : ∀ c ∈ c5configs,
      countBlindDots c.db "w5" ≤ 1 ∧
      (c.t1.isDone = true ∧ c.t2.isDone = true → c.db = c5dbC) := by
    decide
  exact hall _ hmem

/-- Witness for C5 as amended at a concrete schedule that drives both requests
to completion. -/
theorem c5_same_key_witness :
    countBlindDots (runTwo c5req c5req
        [true, true, true, true, false, false, false, false] c5start).db "w5" ≤ 1 ∧
    ((runTwo c5req c5req [true, true, true, true, false, false, false, false] c5start).t1.isDone = true ∧
     (runTwo c5req c5req [true, true, true, true, false, false, false, false] c5start).t2.isDone = true →
      (runTwo c5req c5req [true, true, true, true, false, false, false, false] c5start).db = c5dbC) :=
  c5_same_key_single_placement [true, true, true, true, false, false, false, false]

/-- C7 as amended: an all-fresh batch for an unrevealed participant is
processed in submission order and truncated up front to
acceptCount = min(10 - freeQuotaConsumed, length): exactly the first
acceptCount dots are inserted as blind placements, the final snapshot shows
the counter raised by acceptCount (revealing at 10), and the remainder is
reported only by omission from the accepted list - the response is the plain
success shape, with no quota-exhausted outcome for the rest. -/
theorem c7_batch_truncation
    (db : DB) (sid : String) (dots : List BatchDot) (s : Session) (ac : Nat)
    (hsid : ¬ sid = "")
    (hvalid : ∀ d ∈ dots, BatchDotValid d)
    (hfind : findSession db sid = some s)
    (hrev : s.revealed = false)
    (hfresh : ∀ d ∈ dots, findDotByKey db sid d.clientDotId = none)
    (hnodup : (dots.map BatchDot.clientDotId).Nodup)
    (hac : (ac : Int) = min (max 0 (10 - s.blindDotsUsed)) (dots.length : Int))
    (hpos : 0 < ac) :
    placeBatch ⟨sid, dots⟩ db =
      (.ok ⟨s.sessionId, s.blindDotsUsed + (ac : Int),
            decide (10 ≤ s.blindDotsUsed + (ac : Int)), s.credits, s.colorHex⟩
          ((freshRows sid (normalizeHex s.colorHex) .blind (dots.take ac) db.nextId).map dotToDTO),
       ⟨db.sessions.map (fun t => if t.sessionId == sid then
            ⟨t.sessionId, t.colorName, t.colorHex,
             s.blindDotsUsed + (ac : Int),
             decide (10 ≤ s.blindDotsUsed + (ac : Int)), t.credits⟩ else t),
        db.dots ++ freshRows sid (normalizeHex s.colorHex) .blind (dots.take ac) db.nextId,
        db.nextId + ac⟩) ∧
    ((freshRows sid (normalizeHex s.colorHex) .blind (dots.take ac) db.nextId).map dotToDTO).length
      = ac := by
  refine ⟨placeBatch_blind_fresh db sid dots s ac hsid hvalid hfind hrev hfresh hnodup hac hpos, ?_⟩
  have haclen : ac ≤ dots.length := by
    have h1 : (ac : Int) ≤ (dots.length : Int) := by
      rw [hac]
      exact min_le_right _ _
    exact_mod_cast h1
  have hcoords : ∀ d ∈ dots.take ac, ∃ x y, d.x = some x ∧ d.y = some y := by
    intro d hd
    obtain ⟨⟨x, hx, _, _⟩, ⟨y, hy, _, _⟩, _⟩ := hvalid d (List.take_subset ac dots hd)
    exact ⟨x, y, hx, hy⟩
  rw [List.length_map, freshRows_length _ _ _ _ _ hcoords, List.length_take]
  omega

/-- C7, counterexample: on Scenario D (15 proposed placements at
freeQuotaConsumed = 7) the batch response is the plain success shape with
exactly 3 accepted items; no quota-exhausted outcome is reported for the
remaining 12, contrary to the claim. -/
theorem c7_counterexample :
    (placeBatch ⟨"w7", c7dots⟩ c7DB).1.isOk = true ∧
    (placeBatch ⟨"w7", c7dots⟩ c7DB).1.acceptedCount = 3 := by
  decide

/-- Witness for C7, Scenario D: 15 proposed placements at freeQuotaConsumed=7
yield exactly 3 accepted blind placements and a final snapshot with
freeQuotaConsumed = 10 and revealed = true, in a plain success response. -/
theorem c7_witness :
    ((placeBatch ⟨"w7", c7dots⟩ c7DB).1 =
      BatchResult.ok ⟨"w7", 10, true, 0, "#00f"⟩
        ((freshRows "w7" (normalizeHex "#00f") Phase.blind (c7dots.take 3) 0).map dotToDTO)) ∧
    ((freshRows "w7" (normalizeHex "#00f") Phase.blind (c7dots.take 3) 0).map dotToDTO).length = 3 := by
  have h := c7_batch_truncation c7DB "w7" c7dots ⟨"w7", "blue", "#00f", 7, false, 0⟩ 3
    (by decide)
    (by
      intro d hd
      fin_cases hd <;>
        exact ⟨⟨0, rfl, by decide, by decide⟩, ⟨0, rfl, by decide, by decide⟩, by decide⟩)
    (by decide) (by decide)
    (by intro d hd; rfl)
    (by decide) (by decide) (by decide)
  constructor
  · rw [h.1]
    decide
  · exact h.2

lemma initAttemptLoop_ok (pools : String → List String) (canonical sid : String) :
    ∀ (n : Nat) (db : DB) (dto : SessionDTO) (db2 : DB),
      initAttemptLoop pools canonical sid n db = (.ok dto, db2) →
      dto.colorName = canonical ∧
      ∃ row ∈ db2.sessions, row.colorName = canonical ∧ sessionToDTO row = dto := by
  intro n
  induction n with
  | zero =>
    intro db dto db2 h
    exact absurd h (by simp [initAttemptLoop])
  | succ n ih =>
    intro db dto db2 h
    simp only [initAttemptLoop] at h
    cases hga : getAvailableHex pools canonical (usedHexesOf db) with
    | none =>
      rw [hga] at h
      dsimp only at h
      exact absurd h (by simp)
    | some cand =>
      rw [hga] at h
      dsimp only at h
      by_cases hdup : ((db.sessions.map Session.colorHex).contains cand) = true
      · rw [if_pos hdup] at h
        exact ih db dto db2 h
      · rw [if_neg hdup] at h
        simp only [Prod.mk.injEq, InitResult.ok.injEq] at h
        obtain ⟨hdto, hdb2⟩ := h
        subst hdto
        subst hdb2
        exact ⟨rfl, ⟨sid, canonical, cand, 0, false, 0⟩, by simp, rfl, rfl⟩

/-- C10: initParticipant canonicalizes the requested label by trimming and
lowercasing before validating it against the closed allowed set, so two
nonempty labels with equal canonical forms receive identical outcomes on the
same store, and on success both the returned and the stored colorLabel equal
the canonical form, which belongs to the lowercase allowed list. -/
theorem c10_canonical_label
    :
    (∀ (pools : String → List String) (a b : String) (db : DB),
      a ≠ "" → b ≠ "" → canonicalColor a = canonicalColor b →
      initParticipant pools (some a) db = initParticipant pools (some b) db) ∧
    (∀ (pools : String → List String) (c : String) (db : DB) (dto : SessionDTO) (db2 : DB),
      initParticipant pools (some c) db = (.ok dto, db2) →
      dto.colorName = canonicalColor c ∧
      dto.colorName ∈ ALLOWED_COLORS ∧
      ∃ row ∈ db2.sessions, row.colorName = canonicalColor c ∧ sessionToDTO row = dto) := by
  constructor
  · intro pools a b db ha hb hcanon
    simp only [initParticipant, if_neg ha, if_neg hb, hcanon]
  · intro pools c db dto db2 h
    simp only [initParticipant] at h
    by_cases hc : c = ""
    · rw [if_pos hc] at h
      exact absurd h (by simp)
    · rw [if_neg hc] at h
      by_cases hallow : (ALLOWED_COLORS.contains (canonicalColor c)) = true
      · rw [if_neg (not_not_intro hallow)] at h
        cases hga : getAvailableHex pools (canonicalColor c) (usedHexesOf db) with
        | none =>
          rw [hga] at h
          dsimp only at h
          exact absurd h (by simp)
        | some cand =>
          rw [hga] at h
          dsimp only at h
          obtain ⟨hname, row, hrow, hrowname, hdto⟩ :=
            initAttemptLoop_ok pools (canonicalColor c)
              ("session-" ++ toString db.nextId) 10 db dto db2 h
          have hmem : canonicalColor c ∈ ALLOWED_COLORS :=
            List.elem_iff.mp hallow
          exact ⟨hname, by rw [hname]; exact hmem, row, hrow, hrowname, hdto⟩
      · rw [if_pos (by simpa using hallow)] at h
        exact absurd h (by simp)

/-- Witness for C10: the labels " BLUE " and "blue" produce identical
outcomes, and the successful init stores and returns the canonical label. -/
theorem c10_witness :
    (initParticipant c10pools (some " BLUE ") c10DB
      = initParticipant c10pools (some "blue") c10DB) ∧
    ((⟨"session-0", "blue", "#0000ff", 0, false, 0⟩ : SessionDTO).colorName
        = canonicalColor " BLUE " ∧
     (⟨"session-0", "blue", "#0000ff", 0, false, 0⟩ : SessionDTO).colorName ∈ ALLOWED_COLORS ∧
     ∃ row ∈ (⟨[⟨"session-0", "blue", "#0000ff", 0, false, 0⟩], [], 1⟩ : DB).sessions,
       row.colorName = canonicalColor " BLUE " ∧
       sessionToDTO row = ⟨"session-0", "blue", "#0000ff", 0, false, 0⟩) :=
  ⟨c10_canonical_label.1 c10pools " BLUE " "blue" c10DB (by decide) (by decide) (by decide),
   c10_canonical_label.2 c10pools " BLUE " c10DB
     ⟨"session-0", "blue", "#0000ff", 0, false, 0⟩
     ⟨[⟨"session-0", "blue", "#0000ff", 0, false, 0⟩], [], 1⟩
     (by decide)⟩
